import Mathlib

/-!
Shallow embedding of `src/oddcor.py` (a Streamlit corners-odds dashboard).

JSON payloads are modelled by the inductive type `Json` below.  Numbers are
modelled by `ℚ` (Python ints and floats conflated; NaN/inf are not produced by
the providers' JSON and are not representable here).  Python operations that
can raise (`x[k]` / `k in x` on non-containers, `.get` on non-dicts,
`.lower()` on non-strings) are modelled in the `Except Unit` monad: `.error ()`
stands for an uncaught Python exception, which in the script aborts the whole
search action.  Python dicts (the result of `json.loads`) have unique keys, so
`Json.obj` association lists are looked up first-match.
-/

namespace Oddcor

inductive Json where
  | null : Json
  | bool : Bool → Json
  | num : ℚ → Json
  | str : String → Json
  | arr : List Json → Json
  | obj : List (String × Json) → Json

/-- Python truthiness (`bool(x)`) of a JSON value. -/
def truthy : Json → Bool
  | .null => false
  | .bool b => b
  | .num q => q ≠ 0
  | .str s => s ≠ ""
  | .arr xs => ¬ xs.isEmpty
  | .obj kvs => ¬ kvs.isEmpty

/-- First-match association-list lookup, modelling Python dict access. -/
def jlookup (kvs : List (String × Json)) (k : String) : Option Json :=
  (kvs.find? (fun kv => kv.1 = k)).map (fun kv => kv.2)

/-- Substring test on character lists (`needle in hay` for Python strings). -/
def hasSubAux (needle : List Char) : List Char → Bool
  | [] => needle.isEmpty
  | c :: cs => needle.isPrefixOf (c :: cs) || hasSubAux needle cs

/-- Python `needle in hay` for strings. -/
def strContains (hay needle : String) : Bool :=
  hasSubAux needle.toList hay.toList

/-- Python `k in src` for a JSON value `src`: key membership for dicts,
substring for strings, element equality for lists; `TypeError` otherwise. -/
def containsKey (src : Json) (k : String) : Except Unit Bool :=
  match src with
  | .obj kvs => .ok (kvs.any (fun kv => kv.1 = k))
  | .str s => .ok (strContains s k)
  | .arr xs => .ok (xs.any (fun x => match x with | .str s => s = k | _ => false))
  | _ => .error ()

/-- Python `src[k]`: dict item access (`KeyError` when absent,
`TypeError` on non-dicts; the script only indexes after an `in` test). -/
def getItem (src : Json) (k : String) : Except Unit Json :=
  match src with
  | .obj kvs =>
    match jlookup kvs k with
    | some v => .ok v
    | none => .error ()
  | _ => .error ()

/-- Python `src.get(k)` (default `None`); `AttributeError` on non-dicts. -/
def dictGet (src : Json) (k : String) : Except Unit Json :=
  match src with
  | .obj kvs => .ok ((jlookup kvs k).getD .null)
  | _ => .error ()

/-- Tells whether a picked value is `None` or `""`, i.e. in Python
`v in (None, "")`, which makes `pick_first` skip it. -/
def isNoneOrEmpty : Json → Bool
  | .null => true
  | .str s => s = ""
  | _ => false

/-- Embeds `pick_first(*keys, src=src, default=default)` from the script:
first key present in `src` whose value is neither `None` nor `""` wins. -/
def pick_first (keys : List String) (src : Json) (dflt : Json := .str "") :
    Except Unit Json :=
  match keys with
  | [] => .ok dflt
  | k :: ks => do
    let b ← containsKey src k
    if b then do
      let v ← getItem src k
      if isNoneOrEmpty v then pick_first ks src dflt else pure v
    else pick_first ks src dflt

/-- ASCII lowering of one character (Python `.lower()`; the feeds and the
literals compared against are ASCII). -/
def lowerChar (c : Char) : Char :=
  if 'A' ≤ c ∧ c ≤ 'Z' then Char.ofNat (c.toNat + 32) else c

/-- Python `s.lower()`. -/
def strLower (s : String) : String := String.mk (s.toList.map lowerChar)

/-- Embeds the script's `has_corners(text)`: `"corner" in (text or "").lower()`.
A falsy value collapses to `""`; `.lower()` on a truthy non-string raises. -/
def has_corners (text : Json) : Except Unit Bool :=
  if truthy text then
    match text with
    | .str s => .ok (strContains (strLower s) "corner")
    | _ => .error ()
  else .ok false

/-- Combined market-selection test of the script (line 266):
`has_corners(m_name) or has_corners(sel_name)`, with Python short-circuit. -/
def corner_keep (m_name sel_name : Json) : Except Unit Bool := do
  let c1 ← has_corners m_name
  if c1 then pure true else has_corners sel_name

/-- Embeds the odds-extraction loop (lines 269-273): the first of the keys
`odds`/`price`/`decimal`/`value`/`coeff` present with an `int`/`float`
(or `bool`, a Python `int` subtype) value, converted by `float(...)`. -/
def first_odds_from (keys : List String) (o : Json) : Except Unit (Option ℚ) :=
  match keys with
  | [] => .ok none
  | k :: ks => do
    let b ← containsKey o k
    if b then do
      let v ← getItem o k
      match v with
      | .num q => pure (some q)
      | .bool tv => pure (some (if tv then 1 else 0))
      | _ => first_odds_from ks o
    else first_odds_from ks o

def oddsKeys : List String := ["odds", "price", "decimal", "value", "coeff"]

def first_odds (o : Json) : Except Unit (Option ℚ) :=
  first_odds_from oddsKeys o

/-! String rendering (`to_str` / Python `str`).  `str()` of a JSON-shaped
Python value never raises, so `to_str` degenerates to `str(x)`.  Python
renders floats with a shortest-roundtrip decimal; here numbers are `ℚ` and an
integral value prints without a decimal point (Python ints), a non-integral
one with up to 17 fractional digits of its decimal expansion (enough for every
float a provider's JSON can denote). -/

def digitVal (c : Char) : ℕ := c.toNat - 48

def isDig (c : Char) : Bool := '0' ≤ c ∧ c ≤ '9'

/-- Emits `fuel` decimal digits of `r / d` (with `r < d`), stopping at a zero
remainder; used to print the fractional part of a rational. -/
def fracDigitsGo : ℕ → ℕ → ℕ → List Char
  | 0, _, _ => []
  | fuel + 1, r, d =>
    if r = 0 then []
    else Char.ofNat (48 + r * 10 / d) :: fracDigitsGo fuel (r * 10 % d) d

/-- Decimal rendering of a rational, modelling Python's `str` on numbers. -/
def numRepr (q : ℚ) : String :=
  if q.den = 1 then toString q.num
  else
    let sgn := if q < 0 then "-" else ""
    let n := q.num.natAbs
    sgn ++ toString (n / q.den) ++ "." ++
      String.mk (fracDigitsGo 17 (n % q.den) q.den)

/-- A single-quote character as a string (used by Python `repr` of strings). -/
def sq : String := String.singleton (Char.ofNat 39)

/-- Python `repr` of a JSON-shaped value (what `str` uses inside containers):
`None`/`True`/`False`, quoted strings, bracketed lists, braced dicts. -/
def pyRepr : Json → String
  | .null => "None"
  | .bool true => "True"
  | .bool false => "False"
  | .num q => numRepr q
  | .str s => sq ++ s ++ sq
  | .arr xs =>
    "[" ++ String.intercalate ", " (xs.attach.map (fun x => pyRepr x.1)) ++ "]"
  | .obj kvs =>
    "\x7b" ++
      String.intercalate ", "
        (kvs.attach.map (fun kv => sq ++ kv.1.1 ++ sq ++ ": " ++ pyRepr kv.1.2))
      ++ "\x7d"
decreasing_by
  all_goals simp_wf
  · have := List.sizeOf_lt_of_mem x.2
    omega
  · have := List.sizeOf_lt_of_mem kv.2
    obtain ⟨⟨a, b⟩, h⟩ := kv
    simp only [Prod.mk.sizeOf_spec] at this ⊢
    omega

/-- Embeds the script's `to_str(x)`: Python `str(x)`, which is the bare string
for strings and `repr`-style rendering for every other JSON-shaped value. -/
def to_str (x : Json) : String :=
  match x with
  | .str s => s
  | j => pyRepr j

/-! Number extraction from selection names.  The script runs
`re.findall(r"\d+(?:\.\d+)?", to_str(sel_name))`: leftmost, maximal-munch
digit runs with an optional single fractional part (ASCII digits; the feeds
are ASCII).  Modelled by a small scanner. -/

inductive NumScanState where
  | idle : NumScanState
  | ints (ds : List Char) : NumScanState
  | dotted (ds : List Char) : NumScanState
  | fracs (ds fs : List Char) : NumScanState

def numTok (ds : List Char) : String := String.mk ds.reverse

def numTokF (ds fs : List Char) : String :=
  String.mk (ds.reverse ++ '.' :: fs.reverse)

/-- Scanner for `\d+(?:\.\d+)?` matches, left to right, maximal munch. -/
def findNumbersGo : NumScanState → List Char → List String
  | .idle, [] => []
  | .ints ds, [] => [numTok ds]
  | .dotted ds, [] => [numTok ds]
  | .fracs ds fs, [] => [numTokF ds fs]
  | .idle, c :: cs =>
    if isDig c then findNumbersGo (.ints [c]) cs else findNumbersGo .idle cs
  | .ints ds, c :: cs =>
    if isDig c then findNumbersGo (.ints (c :: ds)) cs
    else if c = '.' then findNumbersGo (.dotted ds) cs
    else numTok ds :: findNumbersGo .idle cs
  | .dotted ds, c :: cs =>
    if isDig c then findNumbersGo (.fracs ds [c]) cs
    else numTok ds :: findNumbersGo .idle cs
  | .fracs ds fs, c :: cs =>
    if isDig c then findNumbersGo (.fracs ds (c :: fs)) cs
    else numTokF ds fs :: findNumbersGo .idle cs

/-- Embeds `re.findall(r"\d+(?:\.\d+)?", s)`. -/
def findNumbers (s : String) : List String :=
  findNumbersGo .idle s.toList

def parseDigs (ds : List Char) : ℕ :=
  ds.foldl (fun a c => 10 * a + digitVal c) 0

/-- Embeds `float(tok)` on a token matched by `\d+(?:\.\d+)?` (at most one
decimal point, so splitting at the first `.` is exact). -/
def parseNumTok (s : String) : ℚ :=
  match s.toList.span (fun c => c ≠ '.') with
  | (i, []) => parseDigs i
  | (i, _ :: f) => (parseDigs i : ℚ) + (parseDigs f : ℚ) / ((10 : ℚ) ^ f.length)

/-- Embeds the min-line heuristic of `extract_corner_rows` (lines 275-284):
if the selection name contains a number, the first one must be `>= min_line`;
otherwise the row passes unconditionally. -/
def pass_min (min_line : ℚ) (sel_name : Json) : Bool :=
  match findNumbers (to_str sel_name) with
  | [] => true
  | n :: _ => decide (min_line ≤ parseNumTok n)

/-! Kickoff-time formatting.  The script's `parse_dt` runs
`datetime.fromisoformat(s.replace("Z", "+00:00")).strftime("%Y-%m-%d %H:%M:%S")`
inside a `try`, returning the input unchanged on any failure (including
non-strings, whose `.replace` raises inside the `try`).  `fromisoformat`
(Python <= 3.10) accepts `YYYY-MM-DD`, optionally followed by one separator
character and `HH[:MM[:SS[.fff[fff]]]]` and an offset `[+-]HH:MM[:SS]`;
`isoFormat` models that grammar with calendar range checks and produces the
`strftime` output. -/

def padWidth (w n : ℕ) : String :=
  let s := toString n
  String.mk (List.replicate (w - s.length) '0') ++ s

def isLeap (y : ℕ) : Bool := (y % 4 = 0 ∧ y % 100 ≠ 0) ∨ y % 400 = 0

def daysInMonth (y m : ℕ) : ℕ :=
  if m = 2 then (if isLeap y then 29 else 28)
  else if m = 4 ∨ m = 6 ∨ m = 9 ∨ m = 11 then 30
  else 31

/-- Reads exactly `n` ASCII digits, returning their value and the rest. -/
def takeDigitsAux : ℕ → ℕ → List Char → Option (ℕ × List Char)
  | 0, acc, cs => some (acc, cs)
  | n + 1, acc, c :: cs =>
    if isDig c then takeDigitsAux n (10 * acc + digitVal c) cs else none
  | _ + 1, _, [] => none

def expectChar (c : Char) : List Char → Option (List Char)
  | d :: cs => if d = c then some cs else none
  | [] => none

/-- Parses the optional `:MM[:SS[.fff[fff]]]` tail of an ISO time. -/
def isoTimeTail (cs : List Char) : Option (ℕ × ℕ × List Char) :=
  match expectChar ':' cs with
  | none => some (0, 0, cs)
  | some cs1 => do
    let (mi, cs2) ← takeDigitsAux 2 0 cs1
    match expectChar ':' cs2 with
    | none => some (mi, 0, cs2)
    | some cs3 => do
      let (s, cs4) ← takeDigitsAux 2 0 cs3
      match expectChar '.' cs4 with
      | none => some (mi, s, cs4)
      | some cs5 =>
        match takeDigitsAux 6 0 cs5 with
        | some (_, cs6) => some (mi, s, cs6)
        | none => do
          let (_, cs6) ← takeDigitsAux 3 0 cs5
          some (mi, s, cs6)

/-- Parses `HH[:MM[:SS[.fff[fff]]]]` followed by an optional UTC offset. -/
def isoTime (cs : List Char) : Option (ℕ × ℕ × ℕ) := do
  let (h, cs1) ← takeDigitsAux 2 0 cs
  let (mi, s, cs2) ← isoTimeTail cs1
  if h ≥ 24 ∨ mi ≥ 60 ∨ s ≥ 60 then none
  else
    match cs2 with
    | [] => some (h, mi, s)
    | c :: cs3 =>
      if c = '+' ∨ c = '-' then do
        let (oh, cs4) ← takeDigitsAux 2 0 cs3
        let cs5 ← expectChar ':' cs4
        let (om, cs6) ← takeDigitsAux 2 0 cs5
        let rest ← match expectChar ':' cs6 with
          | none => some cs6
          | some cs7 => do
            let (os, cs8) ← takeDigitsAux 2 0 cs7
            if os ≥ 60 then none else some cs8
        if oh ≥ 24 ∨ om ≥ 60 ∨ rest ≠ [] then none else some (h, mi, s)
      else none

/-- Models `datetime.fromisoformat` + `strftime("%Y-%m-%d %H:%M:%S")`. -/
def isoFormat (t : String) : Option String := do
  let cs := t.toList
  let (y, cs1) ← takeDigitsAux 4 0 cs
  let cs2 ← expectChar '-' cs1
  let (mo, cs3) ← takeDigitsAux 2 0 cs2
  let cs4 ← expectChar '-' cs3
  let (d, cs5) ← takeDigitsAux 2 0 cs4
  if y = 0 ∨ mo = 0 ∨ mo > 12 ∨ d = 0 ∨ d > daysInMonth y mo then none
  else do
    let (h, mi, s) ← match cs5 with
      | [] => some (0, 0, 0)
      | _ :: cs6 => isoTime cs6
    some (padWidth 4 y ++ "-" ++ padWidth 2 mo ++ "-" ++ padWidth 2 d ++ " " ++
      padWidth 2 h ++ ":" ++ padWidth 2 mi ++ ":" ++ padWidth 2 s)

/-- Replacement of every occurrence of one character by a string, modelling
`t.replace("Z", "+00:00")` (a one-character pattern). -/
def replaceChar (pat : Char) (rep : List Char) : List Char → List Char
  | [] => []
  | c :: cs =>
    if c = pat then rep ++ replaceChar pat rep cs
    else c :: replaceChar pat rep cs

/-- Embeds the script's `parse_dt`: reformat ISO timestamps, pass everything
else (including parse failures and non-strings) through unchanged. -/
def parse_dt (s : Json) : Json :=
  match s with
  | .str t =>
    match isoFormat (String.mk (replaceChar 'Z' "+00:00".toList t.toList)) with
    | some out => .str out
    | none => .str t
  | j => j

/-! The normalizer `extract_corner_rows` (lines 235-298).  Its Python loops
`for book ... for m ... for o ...` with `rows.append` are embedded as
recursive list traversals that concatenate in the same order. -/

/-- One emitted quote row: the dict appended at lines 287-297.  `odds` is
`Option ℚ` because the script appends `odds_val = None` when no numeric odds
key is present. -/
structure Row where
  match_id : Json
  start_time : Json
  league : Json
  home : Json
  away : Json
  book : Json
  market : Json
  selection : Json
  odds : Option ℚ

/-- Match-level fields computed once at the top of `extract_corner_rows`. -/
structure RowCtx where
  home : Json
  away : Json
  league : Json
  match_id : Json
  start_time : Json

def selKeys : List String := ["name", "label", "selection", "outcome"]

def marketKeys : List String := ["key", "market", "name", "type"]

def bookKeys : List String := ["book", "bookmaker", "title", "name"]

/-- Loop `for k in keys: if isinstance(m.get(k), list): take it; break`, with
`[]` when no key holds a list (raises on non-dicts, like `.get`). -/
def first_list_member (keys : List String) (m : Json) :
    Except Unit (List Json) :=
  match keys with
  | [] => .ok []
  | k :: ks => do
    let v ← dictGet m k
    match v with
    | .arr xs => .ok xs
    | _ => first_list_member ks m

/-- Embeds lines 249-255: `book["markets"]` when it is a list, else the book
itself as a single market when it carries any of the market keys, else none. -/
def markets_of (book : Json) : Except Unit (List Json) := do
  let b ← containsKey book "markets"
  let useList ← if b then do
      let v ← getItem book "markets"
      pure (match v with | Json.arr xs => some xs | _ => none)
    else pure none
  match useList with
  | some xs => pure xs
  | none => do
    let anyK ← anyKeyIn marketKeys book
    pure (if anyK then [book] else [])
where
  /-- Python `any(k in book for k in keys)` with short-circuit. -/
  anyKeyIn : List String → Json → Except Unit Bool
    | [], _ => .ok false
    | k :: ks, j => do
      let b ← containsKey j k
      if b then pure true else anyKeyIn ks j

/-- Embeds lines 259-263: the first of `selections`/`outcomes`/`bets`/
`options` that holds a list, else no outcomes. -/
def outs_of (m : Json) : Except Unit (List Json) :=
  first_list_member ["selections", "outcomes", "bets", "options"] m

/-- Embeds the body of the outcome loop (lines 264-297) for one candidate
outcome `o`: `some row` when the row is appended, `none` when a `continue`
drops it. -/
def out_row (ctx : RowCtx) (book_name m_name : Json) (min_line : ℚ)
    (o : Json) : Except Unit (Option Row) := do
  let sel_name ← pick_first selKeys o
  let keep ← corner_keep m_name sel_name
  if keep then do
    let odds_val ← first_odds o
    if pass_min min_line sel_name then
      pure (some
        { match_id := ctx.match_id, start_time := ctx.start_time,
          league := ctx.league, home := ctx.home, away := ctx.away,
          book := book_name, market := m_name, selection := sel_name,
          odds := odds_val })
    else pure none
  else pure none

/-- Inner `for o in outs` loop, appending emitted rows in input order. -/
def outs_loop (ctx : RowCtx) (book_name m_name : Json) (min_line : ℚ) :
    List Json → Except Unit (List Row)
  | [] => .ok []
  | o :: os => do
    let r? ← out_row ctx book_name m_name min_line o
    let rest ← outs_loop ctx book_name m_name min_line os
    pure (match r? with | some r => r :: rest | none => rest)

/-- Body of the `for m in markets` loop for one market. -/
def market_rows (ctx : RowCtx) (book_name : Json) (min_line : ℚ) (m : Json) :
    Except Unit (List Row) := do
  let m_name ← pick_first marketKeys m
  let outs ← outs_of m
  outs_loop ctx book_name m_name min_line outs

/-- Middle `for m in markets` loop. -/
def markets_loop (ctx : RowCtx) (book_name : Json) (min_line : ℚ) :
    List Json → Except Unit (List Row)
  | [] => .ok []
  | m :: ms => do
    let rs ← market_rows ctx book_name min_line m
    let rest ← markets_loop ctx book_name min_line ms
    pure (rs ++ rest)

/-- Body of the `for book in candidates` loop for one bookmaker block. -/
def book_rows (ctx : RowCtx) (min_line : ℚ) (book : Json) :
    Except Unit (List Row) := do
  let book_name ← pick_first bookKeys book
  let markets ← markets_of book
  markets_loop ctx book_name min_line markets

/-- Line 246: `candidates = odds_block if isinstance(odds_block, list) else []`. -/
def jsonCandidates : Json → List Json
  | .arr xs => xs
  | _ => []

/-- Outer `for book in candidates` loop. -/
def books_loop (ctx : RowCtx) (min_line : ℚ) :
    List Json → Except Unit (List Row)
  | [] => .ok []
  | book :: bs => do
    let rs ← book_rows ctx min_line book
    let rest ← books_loop ctx min_line bs
    pure (rs ++ rest)

/-- Embeds `extract_corner_rows(match, odds_block, min_line)` (lines
235-298). -/
def extract_corner_rows (mtch odds_block : Json) (min_line : ℚ) :
    Except Unit (List Row) := do
  let home ← pick_first ["homeTeam", "home_team", "home"] mtch
  let away ← pick_first ["awayTeam", "away_team", "away"] mtch
  let league ← pick_first ["league", "competition", "tournament"] mtch
  let match_id ← pick_first ["id", "matchId", "fixtureId", "eventId"] mtch
  let st0 ← pick_first ["startTime", "commence_time", "start_time", "kickoff"] mtch
  let ctx : RowCtx :=
    { home := home, away := away, league := league,
      match_id := match_id, start_time := parse_dt st0 }
  books_loop ctx min_line (jsonCandidates odds_block)

/-! HTTP layer.  A response is a status code, a body text, and the result of
`r.json()` on that body (`none` when parsing raises).  The network is an
environment mapping a URL to `none` (a transport exception from
`requests.get`) or to a response.  The script issues at most one request per
URL, so a deterministic per-URL environment is faithful. -/

structure HttpResp where
  status : ℕ
  body : String
  json : Option Json

def Env : Type := String → Option HttpResp

/-- URL composition `f"https://{rapidapi_host}/{path}"`. -/
def mk_url (host path : String) : String :=
  "https://" ++ host ++ "/" ++ path

/-- Embeds `probe_first_working_path` (lines 148-163): try each path once;
return the first that answers 200 with a parseable JSON body; on any
exception, non-200 status, or JSON parse failure, move to the next path;
exhaustion yields `("", {})`. -/
def probe_first_working_path (env : Env) (host : String) :
    List String → String × Json
  | [] => ("", Json.obj [])
  | p :: ps =>
    match env (mk_url host p) with
    | none => probe_first_working_path env host ps
    | some r =>
      if r.status = 200 then
        match r.json with
        | some j => (p, j)
        | none => probe_first_working_path env host ps
      else probe_first_working_path env host ps

/-- Instrumented `probe_first_working_path` also returning the list of URLs
requested, in order (one entry per `requests.get` call). -/
def probe_trace (env : Env) (host : String) :
    List String → (String × Json) × List String
  | [] => (("", Json.obj []), [])
  | p :: ps =>
    match env (mk_url host p) with
    | none =>
      ((probe_trace env host ps).1, mk_url host p :: (probe_trace env host ps).2)
    | some r =>
      if r.status = 200 then
        match r.json with
        | some j => ((p, j), [mk_url host p])
        | none =>
          ((probe_trace env host ps).1,
            mk_url host p :: (probe_trace env host ps).2)
      else
        ((probe_trace env host ps).1,
          mk_url host p :: (probe_trace env host ps).2)

/-- Errors of the direct (non-autodetect) fetch at lines 322-325. -/
inductive FetchErr where
  | net : FetchErr
  | httpStatus (code : ℕ) (body : String) : FetchErr
  | parse (body : String) : FetchErr

/-- Embeds the direct GET of the search action (lines 322-325):
`requests.get` + `r.raise_for_status()` (raises `HTTPError`, carrying the
status and the response whose text the handler displays, for 4xx/5xx) +
`r.json()` (raises a decode error exposing the body on unparseable input). -/
def fetch_direct (env : Env) (u : String) : Except FetchErr Json :=
  match env u with
  | none => .error .net
  | some r =>
    if 400 ≤ r.status ∧ r.status < 600 then .error (.httpStatus r.status r.body)
    else
      match r.json with
      | some j => .ok j
      | none => .error (.parse r.body)

/-! Match-list normalization and per-event odds lookup. -/

/-- Loop of `normalize_matches` and `try_fetch_odds_by_id`'s inner fallback:
first key whose member in dict `j` is a list; `none` otherwise.  Both
call sites guard with `isinstance(..., dict)`-style checks, so this is total. -/
def first_list_member_safe (keys : List String) (j : Json) :
    Option (List Json) :=
  match j with
  | .obj kvs =>
    match keys with
    | [] => none
    | k :: ks =>
      match (jlookup kvs k).getD .null with
      | .arr xs => some xs
      | _ => first_list_member_safe ks (.obj kvs)
  | _ => none

def hasKey (kvs : List (String × Json)) (k : String) : Bool :=
  kvs.any (fun kv => kv.1 = k)

/-- Embeds `normalize_matches(data)` (lines 165-176): a list is returned
as-is; a dict yields the first of `matches`/`events`/`fixtures`/`data`/
`result` holding a list, else `[data]` when both a home-team and an away-team
key are present, else `[]`; anything else yields `[]`.  Total: the script's
`isinstance` guards keep every branch exception-free. -/
def normalize_matches (data : Json) : List Json :=
  match data with
  | .arr xs => xs
  | .obj kvs =>
    match first_list_member_safe ["matches", "events", "fixtures", "data", "result"]
        (.obj kvs) with
    | some xs => xs
    | none =>
      if (["homeTeam", "home_team", "home"].any (hasKey kvs)) ∧
          (["awayTeam", "away_team", "away"].any (hasKey kvs)) then
        [.obj kvs]
      else []
  | _ => []

/-- Embeds `guess_odds_block(match)` (lines 178-185): the first of
`odds`/`markets`/`bookmakers` holding a list (raises on non-dict matches,
like `.get`). -/
def guess_odds_block (mtch : Json) : Except Unit (List Json) :=
  first_list_member ["odds", "markets", "bookmakers"] mtch

/-- Drops characters matching `p` from both ends of a character list. -/
def stripBy (p : Char → Bool) (l : List Char) : List Char :=
  ((l.dropWhile p).reverse.dropWhile p).reverse

def isSpaceChar (c : Char) : Bool :=
  c = ' ' ∨ c = '\t' ∨ c = '\n' ∨ c = '\r' ∨ c = '\x0b' ∨ c = '\x0c'

/-- Python `s.strip().strip("/")`, applied to the provider name when
building id-based odds paths (lines 195-198). -/
def strip_provider (s : String) : String :=
  String.mk (stripBy (fun c => c = '/') (stripBy isSpaceChar s.toList))

/-- Inner loop of `try_fetch_odds_by_id` (lines 199-211): per id-path, one
GET; on a 200 with parseable JSON take a list body as-is, else the first of
`odds`/`markets`/`bookmakers`/`data`/`result` holding a list in a dict body;
every failure falls through to the next path; exhaustion yields `[]`. -/
def odds_paths_loop (env : Env) (host : String) : List String → List Json
  | [] => []
  | p :: ps =>
    match env (mk_url host p) with
    | none => odds_paths_loop env host ps
    | some r =>
      if r.status = 200 then
        match r.json with
        | none => odds_paths_loop env host ps
        | some j =>
          match j with
          | .arr xs => xs
          | _ =>
            match first_list_member_safe
                ["odds", "markets", "bookmakers", "data", "result"] j with
            | some xs => xs
            | none => odds_paths_loop env host ps
      else odds_paths_loop env host ps

/-- Embeds `try_fetch_odds_by_id(match)` (lines 187-212): the or-chain over
`id`/`matchId`/`fixtureId`/`eventId` (first truthy value wins), an empty
result when all are falsy, else the three id-paths probed in order. -/
def try_fetch_odds_by_id (env : Env) (host base : String) (mtch : Json) :
    Except Unit (List Json) := do
  let v1 ← dictGet mtch "id"
  let v2 ← if truthy v1 then pure v1 else dictGet mtch "matchId"
  let v3 ← if truthy v2 then pure v2 else dictGet mtch "fixtureId"
  let match_id ← if truthy v3 then pure v3 else dictGet mtch "eventId"
  if truthy match_id then
    let ids := to_str match_id
    let bse := strip_provider base
    pure (odds_paths_loop env host
      [bse ++ "/odds/" ++ ids,
       bse ++ "/prematch/odds/" ++ ids,
       bse ++ "/live/odds/" ++ ids])
  else pure []

/-! The per-match batch of the search action (lines 345-356) and the
league/team filters (lines 330-337). -/

/-- Embeds the loop body odds lookup: embedded odds first, falling back to
the by-id fetch when the embedded block is empty (falsy). -/
def match_odds_block (env : Env) (host base : String) (mtch : Json) :
    Except Unit (List Json) := do
  let ob ← guess_odds_block mtch
  if ob.isEmpty then try_fetch_odds_by_id env host base mtch else pure ob

/-- Embeds the `for idx, match in enumerate(matches)` batch: each match's
rows are extracted and concatenated in input order. -/
def search_rows (env : Env) (host base : String) (min_line : ℚ) :
    List Json → Except Unit (List Row)
  | [] => .ok []
  | m :: ms => do
    let ob ← match_odds_block env host base m
    let rows ← extract_corner_rows m (Json.arr ob) min_line
    let rest ← search_rows env host base min_line ms
    pure (rows ++ rest)

/-- Embeds the league filter predicate (line 331). -/
def league_cond (lf : String) (m : Json) : Except Unit Bool := do
  let v1 ← dictGet m "league"
  let v2 ← if truthy v1 then pure v1 else dictGet m "competition"
  let v := if truthy v2 then v2 else Json.str ""
  pure (strContains (strLower (to_str v)) (strLower lf))

/-- Embeds the team filter predicate `t_contains` (lines 333-336). -/
def team_cond (tf : String) (m : Json) : Except Unit Bool := do
  let h1 ← dictGet m "homeTeam"
  let h2 ← if truthy h1 then pure h1 else dictGet m "home_team"
  let h3 ← if truthy h2 then pure h2 else dictGet m "home"
  let h := if truthy h3 then h3 else Json.str ""
  let a1 ← dictGet m "awayTeam"
  let a2 ← if truthy a1 then pure a1 else dictGet m "away_team"
  let a3 ← if truthy a2 then pure a2 else dictGet m "away"
  let a := if truthy a3 then a3 else Json.str ""
  pure (strContains (strLower (to_str h)) (strLower tf) ||
    strContains (strLower (to_str a)) (strLower tf))

/-- List-comprehension filter with a fallible predicate. -/
def filter_matches (cond : Json → Except Unit Bool) :
    List Json → Except Unit (List Json)
  | [] => .ok []
  | m :: ms => do
    let keep ← cond m
    let rest ← filter_matches cond ms
    pure (if keep then m :: rest else rest)

/-- Embeds the frozen-payload part of the search action (lines 327-356):
normalize the payload into matches, apply the non-empty league/team filters,
then run the per-match odds batch. -/
def run_search (env : Env) (host base lf tf : String) (payload : Json)
    (min_line : ℚ) : Except Unit (List Row) := do
  let ms0 := normalize_matches payload
  let ms1 ← if lf = "" then pure ms0 else filter_matches (league_cond lf) ms0
  let ms2 ← if tf = "" then pure ms1 else filter_matches (team_cond tf) ms1
  search_rows env host base min_line ms2

/-! Specification-side predicates and concrete instances used by the
theorems below. -/

/-- Provenance of one source outcome dict inside an odds block. -/
def OutcomeSourced (ob o : Json) : Prop :=
  ∃ book ∈ jsonCandidates ob, ∃ ms, markets_of book = .ok ms ∧
    ∃ m ∈ ms, ∃ outs, outs_of m = .ok outs ∧ o ∈ outs

/-- An odds block whose only corner outcome has no numeric odds key. -/
def cex1_odds : Json := .arr [.obj [("book", .str "B"),
  ("markets", .arr [.obj [("name", .str "corners total"),
    ("selections", .arr [.obj [("name", .str "Corner Over")]])]])]]

def cex1_row : Row :=
  { match_id := .str "", start_time := .str "", league := .str "",
    home := .str "", away := .str "", book := .str "B",
    market := .str "corners total", selection := .str "Corner Over",
    odds := none }

/-- An odds block quoting line 9 while the caller's target is 8. -/
def cex3_odds : Json := .arr [.obj [("book", .str "A"),
  ("markets", .arr [.obj [("name", .str "corners"),
    ("selections", .arr [.obj [("name", .str "Corners Over 9"),
      ("odds", .num 2)]])]])]]

def cex3_row : Row :=
  { match_id := .str "", start_time := .str "", league := .str "",
    home := .str "", away := .str "", book := .str "A",
    market := .str "corners", selection := .str "Corners Over 9",
    odds := some 2 }

/-- An odds block with a free-text Over-side corner label. -/
def cex4_odds : Json := .arr [.obj [("book", .str "bk"),
  ("markets", .arr [.obj [("name", .str "totals"),
    ("selections", .arr [.obj [("name", .str "Corner Over 3"),
      ("odds", .num (41/20))]])]])]]

def cex4_row : Row :=
  { match_id := .str "", start_time := .str "", league := .str "",
    home := .str "", away := .str "", book := .str "bk",
    market := .str "totals", selection := .str "Corner Over 3",
    odds := some (41/20) }

/-- An odds block quoting the same (event, book, line, label) twice with
different prices. -/
def cex5_odds : Json := .arr [.obj [("book", .str "A"),
  ("markets", .arr [.obj [("name", .str "total corners"),
    ("selections", .arr [
      .obj [("name", .str "Over 8"), ("odds", .num (21/10))],
      .obj [("name", .str "Over 8"), ("odds", .num (11/5))]])]])]]

def cex5_row1 : Row :=
  { match_id := .str "e1", start_time := .str "", league := .str "",
    home := .str "", away := .str "", book := .str "A",
    market := .str "total corners", selection := .str "Over 8",
    odds := some (21/10) }

def cex5_row2 : Row :=
  { match_id := .str "e1", start_time := .str "", league := .str "",
    home := .str "", away := .str "", book := .str "A",
    market := .str "total corners", selection := .str "Over 8",
    odds := some (11/5) }

/-- A network answering the probed endpoint with HTTP 429 every time. -/
def cex6_env : Env := fun u =>
  if u = mk_url "api.example" "bet365/upcoming" then
    some { status := 429, body := "rate limited", json := none }
  else none

/-- A network answering every URL with HTTP 404. -/
def cex7_env : Env := fun _ =>
  some { status := 404, body := "endpoint missing", json := none }

/-- A network answering every URL 200 with an unparseable body. -/
def cex7_env2 : Env := fun _ =>
  some { status := 200, body := "<html>not json</html>", json := none }

/-- Witness payloads: the script's demo-shaped match and odds block. -/
def wit_match : Json := .obj [("id", .str "demo-001"),
  ("homeTeam", .str "Barcelona"), ("awayTeam", .str "Real Madrid")]

def wit_odds : Json := .arr [.obj [("book", .str "demo-book"),
  ("markets", .arr [.obj [("name", .str "total_corners_home"),
    ("selections", .arr [.obj [("name", .str "Over 2"),
      ("odds", .num (19/10))]])]])]]

def wit_row : Row :=
  { match_id := .str "demo-001", start_time := .str "", league := .str "",
    home := .str "Barcelona", away := .str "Real Madrid",
    book := .str "demo-book", market := .str "total_corners_home",
    selection := .str "Over 2", odds := some (19/10) }

/-- A duplicated outcome and its emitted row, for the no-dedup witness. -/
def wit5_out : Json := .obj [("name", .str "Over 8"), ("odds", .num 2)]

def wit5_row : Row :=
  { match_id := .str "", start_time := .str "", league := .str "",
    home := .str "", away := .str "", book := .str "A",
    market := .str "corners", selection := .str "Over 8", odds := some 2 }

/-- A match carrying its odds inline, for the batch-skip witness. -/
def wit8_match : Json := .obj [("id", .str "demo-002"),
  ("odds", .arr [.obj [("book", .str "demo-book"),
    ("markets", .arr [.obj [("name", .str "corners"),
      ("selections", .arr [.obj [("name", .str "Over 2"),
        ("odds", .num 3)]])]])]])]

def wit8_row : Row :=
  { match_id := .str "demo-002", start_time := .str "", league := .str "",
    home := .str "", away := .str "", book := .str "demo-book",
    market := .str "corners", selection := .str "Over 2", odds := some 3 }

/-! Inversion lemmas for the `Except Unit` plumbing. -/

theorem bind_ok_iff {α β : Type} {x : Except Unit α} {f : α → Except Unit β}
    {b : β} :
    x >>= f = Except.ok b ↔ ∃ a, x = Except.ok a ∧ f a = Except.ok b := by
  cases x with
  | error e => simp [Bind.bind, Except.bind]
  | ok a => simp [Bind.bind, Except.bind]

theorem pure_ok_iff {α : Type} {a b : α} :
    (pure a : Except Unit α) = Except.ok b ↔ a = b := by
  simp [pure, Except.pure]

/-- Field selection on a dict never raises in `pick_first`. -/
theorem pick_first_obj_ok (keys : List String) (kvs : List (String × Json))
    (dflt : Json) :
    ∃ v, pick_first keys (.obj kvs) dflt = .ok v := by
  induction keys with
  | nil => exact ⟨dflt, rfl⟩
  | cons k ks ih =>
    simp only [pick_first, containsKey, bind_ok_iff]
    by_cases hk : kvs.any (fun kv => kv.1 = k)
    · rcases List.any_eq_true.mp hk with ⟨kv, hmem, hkk⟩
      have hsome : (kvs.find? (fun kv => kv.1 = k)).isSome := by
        rw [List.find?_isSome]
        exact ⟨kv, hmem, hkk⟩
      rcases Option.isSome_iff_exists.mp hsome with ⟨kv2, hf⟩
      have hw : jlookup kvs k = some kv2.2 := by simp [jlookup, hf]
      by_cases hne : isNoneOrEmpty kv2.2
      · rcases ih with ⟨v, hv⟩
        exact ⟨v, ⟨true, by simp [hk],
          by simp [getItem, hw, bind_ok_iff, hne, hv]⟩⟩
      · exact ⟨kv2.2, ⟨true, by simp [hk],
          by simp [getItem, hw, bind_ok_iff, hne, pure_ok_iff]⟩⟩
    · rcases ih with ⟨v, hv⟩
      exact ⟨v, ⟨false, by simp [hk], by simpa using hv⟩⟩

/-- Emission of a row by the outcome-loop body forces: a picked selection
name, a passed corner test, a pass of the min-line heuristic, the extracted
odds value, and exactly the appended field values. -/
theorem out_row_some_inv {ctx : RowCtx} {bn mn : Json} {l : ℚ} {o : Json}
    {r : Row} (h : out_row ctx bn mn l o = .ok (some r)) :
    ∃ sel ov, pick_first selKeys o = .ok sel ∧
      corner_keep mn sel = .ok true ∧
      first_odds o = .ok ov ∧
      pass_min l sel = true ∧
      r = { match_id := ctx.match_id, start_time := ctx.start_time,
            league := ctx.league, home := ctx.home, away := ctx.away,
            book := bn, market := mn, selection := sel, odds := ov } := by
  simp only [out_row, bind_ok_iff] at h
  rcases h with ⟨sel, hsel, h⟩
  rcases h with ⟨keep, hkeep, h⟩
  cases keep with
  | false => simp [pure_ok_iff] at h
  | true =>
    simp only [if_true, bind_ok_iff] at h
    rcases h with ⟨ov, hov, h⟩
    by_cases hpm : pass_min l sel = true
    · rw [if_pos hpm, pure_ok_iff] at h
      exact ⟨sel, ov, hsel, hkeep, hov, hpm, by
        cases h; rfl⟩
    · rw [if_neg hpm, pure_ok_iff] at h
      simp at h

/-- Every row produced by the outcome loop comes from some listed outcome. -/
theorem outs_loop_mem {ctx : RowCtx} {bn mn : Json} {l : ℚ} {os : List Json}
    {rows : List Row} {r : Row} (h : outs_loop ctx bn mn l os = .ok rows)
    (hr : r ∈ rows) : ∃ o ∈ os, out_row ctx bn mn l o = .ok (some r) := by
  induction os generalizing rows with
  | nil =>
    simp only [outs_loop] at h
    cases h
    cases hr
  | cons o os ih =>
    simp only [outs_loop, bind_ok_iff] at h
    rcases h with ⟨r?, hr?, h⟩
    rcases h with ⟨rest, hrest, h⟩
    rw [pure_ok_iff] at h
    cases r? with
    | none =>
      subst h
      rcases ih hrest hr with ⟨o2, ho2, hout⟩
      exact ⟨o2, List.mem_cons_of_mem o ho2, hout⟩
    | some r2 =>
      subst h
      rcases List.mem_cons.mp hr with hEq | hmem
      · subst hEq
        exact ⟨o, List.mem_cons_self o os, hr?⟩
      · rcases ih hrest hmem with ⟨o2, ho2, hout⟩
        exact ⟨o2, List.mem_cons_of_mem o ho2, hout⟩

/-- Every row produced by the market loop comes from some listed market. -/
theorem markets_loop_mem {ctx : RowCtx} {bn : Json} {l : ℚ} {ms : List Json}
    {rows : List Row} {r : Row} (h : markets_loop ctx bn l ms = .ok rows)
    (hr : r ∈ rows) :
    ∃ m ∈ ms, ∃ rs, market_rows ctx bn l m = .ok rs ∧ r ∈ rs := by
  induction ms generalizing rows with
  | nil =>
    simp only [markets_loop] at h
    cases h
    cases hr
  | cons m ms ih =>
    simp only [markets_loop, bind_ok_iff] at h
    rcases h with ⟨rs, hrs, h⟩
    rcases h with ⟨rest, hrest, h⟩
    rw [pure_ok_iff] at h
    subst h
    rcases List.mem_append.mp hr with hmem | hmem
    · exact ⟨m, List.mem_cons_self m ms, rs, hrs, hmem⟩
    · rcases ih hrest hmem with ⟨m2, hm2, rs2, hrs2, hmem2⟩
      exact ⟨m2, List.mem_cons_of_mem m hm2, rs2, hrs2, hmem2⟩

/-- Every row produced by the book loop comes from some listed book. -/
theorem books_loop_mem {ctx : RowCtx} {l : ℚ} {bs : List Json}
    {rows : List Row} {r : Row} (h : books_loop ctx l bs = .ok rows)
    (hr : r ∈ rows) :
    ∃ book ∈ bs, ∃ rs, book_rows ctx l book = .ok rs ∧ r ∈ rs := by
  induction bs generalizing rows with
  | nil =>
    simp only [books_loop] at h
    cases h
    cases hr
  | cons b bs ih =>
    simp only [books_loop, bind_ok_iff] at h
    rcases h with ⟨rs, hrs, h⟩
    rcases h with ⟨rest, hrest, h⟩
    rw [pure_ok_iff] at h
    subst h
    rcases List.mem_append.mp hr with hmem | hmem
    · exact ⟨b, List.mem_cons_self b bs, rs, hrs, hmem⟩
    · rcases ih hrest hmem with ⟨b2, hb2, rs2, hrs2, hmem2⟩
      exact ⟨b2, List.mem_cons_of_mem b hb2, rs2, hrs2, hmem2⟩

/-- Workhorse: every row in a successful `extract_corner_rows` run traces
back to one candidate outcome, with all the per-row facts the claims need. -/
theorem extract_row_provenance {mtch ob : Json} {l : ℚ} {rows : List Row}
    {r : Row} (h : extract_corner_rows mtch ob l = .ok rows) (hr : r ∈ rows) :
    ∃ o, OutcomeSourced ob o ∧
      pick_first selKeys o = .ok r.selection ∧
      corner_keep r.market r.selection = .ok true ∧
      first_odds o = .ok r.odds ∧
      pass_min l r.selection = true := by
  simp only [extract_corner_rows, bind_ok_iff] at h
  rcases h with ⟨home, _, h⟩
  rcases h with ⟨away, _, h⟩
  rcases h with ⟨league, _, h⟩
  rcases h with ⟨mid, _, h⟩
  rcases h with ⟨st0, _, h⟩
  rcases books_loop_mem h hr with ⟨book, hbook, rs, hbrs, hmem⟩
  simp only [book_rows, bind_ok_iff] at hbrs
  rcases hbrs with ⟨bn, hbn, hbrs⟩
  rcases hbrs with ⟨ms, hms, hml⟩
  rcases markets_loop_mem hml hmem with ⟨m, hm, rs2, hmr, hmem2⟩
  simp only [market_rows, bind_ok_iff] at hmr
  rcases hmr with ⟨mn, hmn, hmr⟩
  rcases hmr with ⟨outs, houts, hol⟩
  rcases outs_loop_mem hol hmem2 with ⟨o, ho, hout⟩
  rcases out_row_some_inv hout with ⟨sel, ov, hsel, hck, hov, hpm, hrEq⟩
  subst hrEq
  exact ⟨o, ⟨book, hbook, ms, hms, m, hm, outs, houts, ho⟩,
    hsel, hck, hov, hpm⟩

/-- On dicts, the list-member scan is the first key whose member is a list. -/
theorem first_list_member_safe_obj (keys : List String)
    (kvs : List (String × Json)) :
    first_list_member_safe keys (.obj kvs) =
      keys.findSome? (fun k =>
        match (jlookup kvs k).getD .null with
        | Json.arr xs => some xs
        | _ => none) := by
  induction keys with
  | nil => rfl
  | cons k ks ih =>
    rw [List.findSome?_cons]
    cases hv : (jlookup kvs k).getD .null <;>
      simp [first_list_member_safe, hv, ih]

/-- Claim C10: the match-list normalizer is total over arbitrary JSON and
always returns a list: a JSON list as-is; for a JSON object the first of its
`matches`/`events`/`fixtures`/`data`/`result` members that is a list, else
the singleton `[object]` when the object carries both a home-team key and an
away-team key, else `[]`; every other JSON value yields `[]` — and being a
total Lean function of the guarded dictionary reads, no input raises. -/
theorem c10_normalize_matches_characterization (data : Json) :
    normalize_matches data =
      (match data with
       | Json.arr xs => xs
       | Json.obj kvs =>
         (match ["matches", "events", "fixtures", "data", "result"].findSome?
             (fun k =>
               match (jlookup kvs k).getD .null with
               | Json.arr xs => some xs
               | _ => none) with
          | some xs => xs
          | none =>
            if (["homeTeam", "home_team", "home"].any (hasKey kvs)) ∧
                (["awayTeam", "away_team", "away"].any (hasKey kvs)) then
              [Json.obj kvs]
            else [])
       | _ => []) := by
  cases data <;> simp [normalize_matches, first_list_member_safe_obj]

/-- Claim C9: the frozen-payload pipeline (normalize, league/team filters,
per-match odds batch, row extraction) is a pure function of the environment,
configuration and payload, so two runs over the same frozen input with the
same filter parameters produce identical rows, in the same order. -/
theorem c9_pipeline_deterministic (env : Env) (host base lf tf : String)
    (payload : Json) (l : ℚ) :
    run_search env host base lf tf payload l =
      run_search env host base lf tf payload l := rfl

/-- Claim C1 counterexample: a corner outcome with no parseable price is NOT
dropped — `extract_corner_rows` emits it with `odds = none` (Python `None`),
contradicting the claim that such candidates are dropped entirely. -/
theorem c1_cex :
    extract_corner_rows (Json.obj []) cex1_odds 0 = .ok [cex1_row] ∧
    cex1_row.odds = none :=
  ⟨rfl, rfl⟩

/-- Claim C3 counterexample: with caller target line 8, the filter keeps a
row whose line reads 9 — the kept row's line value does not equal the
target, because the code tests `first number >= min_line`, not equality. -/
theorem c3_cex :
    extract_corner_rows (Json.obj []) cex3_odds 8 = .ok [cex3_row] ∧
    findNumbers (to_str cex3_row.selection) = ["9"] ∧
    parseNumTok "9" ≠ (8 : ℚ) :=
  ⟨rfl, rfl, by decide⟩

/-- Claim C4 counterexample: an Over-side corner outcome is emitted with its
native free-text label, not with the canonical label `"Over"` (or
`"Under"`): no canonicalization exists in `extract_corner_rows`. -/
theorem c4_cex :
    extract_corner_rows (Json.obj []) cex4_odds 0 = .ok [cex4_row] ∧
    cex4_row.selection ≠ Json.str "Over" ∧
    cex4_row.selection ≠ Json.str "Under" :=
  ⟨rfl, by simp [cex4_row], by simp [cex4_row]⟩

/-- Claim C5 counterexample: duplicate quotes for the same
(event, bookmaker, line, label) are BOTH emitted, with their different
prices — no first-wins deduplication happens. -/
theorem c5_cex :
    extract_corner_rows (Json.obj [("id", .str "e1")]) cex5_odds 0 =
      .ok [cex5_row1, cex5_row2] ∧
    cex5_row1.match_id = cex5_row2.match_id ∧
    cex5_row1.book = cex5_row2.book ∧
    cex5_row1.selection = cex5_row2.selection ∧
    cex5_row1.odds ≠ cex5_row2.odds :=
  ⟨rfl, rfl, rfl, rfl, by simp only [cex5_row1, cex5_row2]; norm_num⟩

/-- Claim C6 counterexample: a request answered with HTTP 429 (a status the
claim says is retried) is issued exactly once — the trace holds a single URL
— and the probe gives up instead of retrying with backoff. -/
theorem c6_cex :
    probe_trace cex6_env "api.example" ["bet365/upcoming"] =
      (("", Json.obj []), [mk_url "api.example" "bet365/upcoming"]) := rfl

/-- Claim C7 counterexample: in autodetect mode a non-retryable non-200
status (404) and a 200 with an unparseable body both make the probe return
the success-shaped sentinel `("", {})`, carrying neither the status code nor
the response body, instead of failing with a diagnostic error. -/
theorem c7_cex :
    probe_first_working_path cex7_env "api.example" ["bet365/upcoming"] =
      ("", Json.obj []) ∧
    probe_first_working_path cex7_env2 "api.example" ["bet365/upcoming"] =
      ("", Json.obj []) :=
  ⟨rfl, rfl⟩

/-- Claim C1 (amended): every emitted row's price is exactly what the
odds-key scan yields on its source outcome — `some q` with `q` a (finite)
rational when one of `odds`/`price`/`decimal`/`value`/`coeff` holds a
number, and `None` otherwise; a missing or unparseable price never defaults
to a number, but it also never drops the row (see the counterexample). -/
theorem c1_odds_faithful :
    ∀ (mtch ob : Json) (l : ℚ) (rows : List Row) (r : Row),
      extract_corner_rows mtch ob l = .ok rows → r ∈ rows →
      ∃ o, OutcomeSourced ob o ∧ first_odds o = .ok r.odds := by
  intro mtch ob l rows r h hr
  rcases extract_row_provenance h hr with ⟨o, hsrc, _, _, hov, _⟩
  exact ⟨o, hsrc, hov⟩

theorem c1_witness :
    ∃ o, OutcomeSourced wit_odds o ∧ first_odds o = .ok wit_row.odds :=
  c1_odds_faithful wit_match wit_odds 2 [wit_row] wit_row rfl
    (List.mem_singleton.mpr rfl)

/-- Claim C2: a candidate outcome passes the market-selection step iff the
case-insensitive substring `"corner"` occurs in its market name or its
selection name (OR'd, short-circuit).  Every emitted row satisfies the test
on its own market/selection fields, and the outcome-loop body emits a row
exactly when the corner test and the (separate) min-line heuristic both
pass — so no corner-matching outcome is excluded by the market-selection
step itself. -/
theorem c2_corner_selection :
    (∀ (mtch ob : Json) (l : ℚ) (rows : List Row) (r : Row),
        extract_corner_rows mtch ob l = .ok rows → r ∈ rows →
        corner_keep r.market r.selection = .ok true) ∧
    (∀ (ctx : RowCtx) (bn mn : Json) (l : ℚ) (o : Json) (r? : Option Row)
        (sel : Json),
        out_row ctx bn mn l o = .ok r? → pick_first selKeys o = .ok sel →
        (r?.isSome = true ↔
          (corner_keep mn sel = .ok true ∧ pass_min l sel = true))) := by
  constructor
  · intro mtch ob l rows r h hr
    rcases extract_row_provenance h hr with ⟨o, _, _, hck, _, _⟩
    exact hck
  · intro ctx bn mn l o r? sel h hsel
    simp only [out_row, bind_ok_iff] at h
    rcases h with ⟨sel2, hsel2, h⟩
    rw [hsel2] at hsel
    cases hsel
    rcases h with ⟨keep, hkeep, h⟩
    cases keep with
    | false =>
      rw [if_neg (by simp), pure_ok_iff] at h
      subst h
      simp only [Option.isSome_none, hkeep]
      constructor
      · intro hfalse; cases hfalse
      · rintro ⟨hck, -⟩
        cases hck
    | true =>
      rw [if_pos rfl] at h
      rw [bind_ok_iff] at h
      rcases h with ⟨ov, hov, h⟩
      by_cases hpm : pass_min l sel = true
      · rw [if_pos hpm, pure_ok_iff] at h
        subst h
        simp [hkeep, hpm]
      · rw [if_neg hpm, pure_ok_iff] at h
        subst h
        simp [hpm]

theorem c2_witness :
    corner_keep wit_row.market wit_row.selection = .ok true :=
  c2_corner_selection.1 wit_match wit_odds 2 [wit_row] wit_row rfl
    (List.mem_singleton.mpr rfl)

/-- Claim C3 (amended): the min-line filter returns a subset of the
candidate outcomes (every returned row traces to a source outcome whose
picked name is the row's selection), and what it guarantees about the line
is only `first parsed number >= min_line` — rows with no parsable number
always pass, and equality with the target is NOT guaranteed (see the
counterexample). -/
theorem c3_line_filter_subset_ge :
    ∀ (mtch ob : Json) (l : ℚ) (rows : List Row) (r : Row),
      extract_corner_rows mtch ob l = .ok rows → r ∈ rows →
      (∃ o, OutcomeSourced ob o ∧ pick_first selKeys o = .ok r.selection) ∧
      (∀ n ns, findNumbers (to_str r.selection) = n :: ns →
        l ≤ parseNumTok n) := by
  intro mtch ob l rows r h hr
  rcases extract_row_provenance h hr with ⟨o, hsrc, hsel, _, _, hpm⟩
  refine ⟨⟨o, hsrc, hsel⟩, ?_⟩
  intro n ns hn
  simp only [pass_min, hn, decide_eq_true_eq] at hpm
  exact hpm

theorem c3_witness :
    (∃ o, OutcomeSourced wit_odds o ∧
      pick_first selKeys o = .ok wit_row.selection) ∧
    (∀ n ns, findNumbers (to_str wit_row.selection) = n :: ns →
      (2 : ℚ) ≤ parseNumTok n) :=
  c3_line_filter_subset_ge wit_match wit_odds 2 [wit_row] wit_row rfl
    (List.mem_singleton.mpr rfl)

/-- Claim C4 (amended): emitted rows carry the provider's native outcome
label verbatim — the first non-empty of the `name`/`label`/`selection`/
`outcome` keys of the source outcome — and no canonicalization to
`"Over"`/`"Under"` ever happens (see the counterexample). -/
theorem c4_labels_native :
    ∀ (mtch ob : Json) (l : ℚ) (rows : List Row) (r : Row),
      extract_corner_rows mtch ob l = .ok rows → r ∈ rows →
      ∃ o, OutcomeSourced ob o ∧ pick_first selKeys o = .ok r.selection ∧
        corner_keep r.market r.selection = .ok true := by
  intro mtch ob l rows r h hr
  rcases extract_row_provenance h hr with ⟨o, hsrc, hsel, hck, _, _⟩
  exact ⟨o, hsrc, hsel, hck⟩

theorem c4_witness :
    ∃ o, OutcomeSourced wit_odds o ∧
      pick_first selKeys o = .ok wit_row.selection ∧
      corner_keep wit_row.market wit_row.selection = .ok true :=
  c4_labels_native wit_match wit_odds 2 [wit_row] wit_row rfl
    (List.mem_singleton.mpr rfl)

/-- Claim C5 (amended): the normalizer performs NO deduplication at all (see
the counterexample); what does hold is that emission is pointwise over the
input in input order — the rows of concatenated outcome lists (and of
concatenated bookmaker blocks) are the concatenated rows, so duplicates of
the same (event, bookmaker, line, label) key all survive, deterministically
in input order. -/
theorem c5_no_dedup_order_preserving :
    (∀ (ctx : RowCtx) (bn mn : Json) (l : ℚ) (os1 os2 : List Json)
        (r1 r2 : List Row),
        outs_loop ctx bn mn l os1 = .ok r1 →
        outs_loop ctx bn mn l os2 = .ok r2 →
        outs_loop ctx bn mn l (os1 ++ os2) = .ok (r1 ++ r2)) ∧
    (∀ (ctx : RowCtx) (l : ℚ) (bs1 bs2 : List Json) (r1 r2 : List Row),
        books_loop ctx l bs1 = .ok r1 →
        books_loop ctx l bs2 = .ok r2 →
        books_loop ctx l (bs1 ++ bs2) = .ok (r1 ++ r2)) := by
  constructor
  · intro ctx bn mn l os1 os2 r1 r2 h1 h2
    induction os1 generalizing r1 with
    | nil =>
      simp only [outs_loop] at h1
      cases h1
      simpa using h2
    | cons o os ih =>
      simp only [outs_loop, bind_ok_iff] at h1
      rcases h1 with ⟨r?, hr?, rest, hrest, hpure⟩
      rw [pure_ok_iff] at hpure
      subst hpure
      rw [List.cons_append]
      simp only [outs_loop, bind_ok_iff]
      refine ⟨r?, hr?, rest ++ r2, ih rest hrest, ?_⟩
      rw [pure_ok_iff]
      cases r? <;> simp
  · intro ctx l bs1 bs2 r1 r2 h1 h2
    induction bs1 generalizing r1 with
    | nil =>
      simp only [books_loop] at h1
      cases h1
      simpa using h2
    | cons b bs ih =>
      simp only [books_loop, bind_ok_iff] at h1
      rcases h1 with ⟨rs, hrs, rest, hrest, hpure⟩
      rw [pure_ok_iff] at hpure
      subst hpure
      rw [List.cons_append]
      simp only [books_loop, bind_ok_iff]
      refine ⟨rs, hrs, rest ++ r2, ih rest hrest, ?_⟩
      rw [pure_ok_iff, List.append_assoc]

theorem c5_witness :
    outs_loop
      { home := .str "", away := .str "", league := .str "",
        match_id := .str "", start_time := .str "" }
      (.str "A") (.str "corners") 0 ([wit5_out] ++ [wit5_out]) =
      .ok ([wit5_row] ++ [wit5_row]) :=
  c5_no_dedup_order_preserving.1
    { home := .str "", away := .str "", league := .str "",
      match_id := .str "", start_time := .str "" }
    (.str "A") (.str "corners") 0 [wit5_out] [wit5_out]
    [wit5_row] [wit5_row] rfl rfl

/-- Claim C6 (amended): the endpoint probe performs no retries at all (see
the counterexample): every candidate path is requested exactly once, in list
order — the request trace is the URL image of a prefix of the path list —
and the traced run computes the same result as the probe, so any failing
status (retryable or not by the claim's classification) just advances to the
next path. -/
theorem c6_probe_single_request_per_path :
    ∀ (env : Env) (host : String) (paths : List String),
      (probe_trace env host paths).1 = probe_first_working_path env host paths ∧
      (probe_trace env host paths).2 =
        (paths.take (probe_trace env host paths).2.length).map (mk_url host) := by
  intro env host paths
  induction paths with
  | nil => exact ⟨rfl, rfl⟩
  | cons p ps ih =>
    cases henv : env (mk_url host p) with
    | none =>
      simp only [probe_trace, probe_first_working_path, henv]
      refine ⟨ih.1, ?_⟩
      simp only [List.length_cons, List.take_succ_cons, List.map_cons]
      exact congrArg (mk_url host p :: ·) ih.2
    | some r =>
      by_cases hst : r.status = 200
      · cases hj : r.json with
        | some j =>
          simp [probe_trace, probe_first_working_path, henv, hst, hj]
        | none =>
          simp only [probe_trace, probe_first_working_path, henv, hst, hj,
            if_true]
          refine ⟨ih.1, ?_⟩
          simp only [List.length_cons, List.take_succ_cons, List.map_cons]
          exact congrArg (mk_url host p :: ·) ih.2
      · simp only [probe_trace, probe_first_working_path, henv, if_neg hst]
        refine ⟨ih.1, ?_⟩
        simp only [List.length_cons, List.take_succ_cons, List.map_cons]
        exact congrArg (mk_url host p :: ·) ih.2

/-- Claim C7 (amended): only the direct (non-autodetect) fetch fails with a
diagnostic: a 4xx/5xx response raises an error carrying the status code and
the response body, and a non-error response whose body fails to parse as
JSON raises a parse error carrying the body.  The autodetect probe instead
silently skips any path whose response status is not 200 (see the
counterexample for the success-shaped sentinel it returns on exhaustion). -/
theorem c7_direct_fails_probe_skips :
    (∀ (env : Env) (u : String) (r : HttpResp), env u = some r →
        400 ≤ r.status → r.status < 600 →
        fetch_direct env u = .error (.httpStatus r.status r.body)) ∧
    (∀ (env : Env) (u : String) (r : HttpResp), env u = some r →
        r.status = 200 → r.json = none →
        fetch_direct env u = .error (.parse r.body)) ∧
    (∀ (env : Env) (host p : String) (ps : List String) (r : HttpResp),
        env (mk_url host p) = some r → r.status ≠ 200 →
        probe_first_working_path env host (p :: ps) =
          probe_first_working_path env host ps) := by
  refine ⟨?_, ?_, ?_⟩
  · intro env u r henv h4 h6
    simp [fetch_direct, henv, h4, h6]
  · intro env u r henv h200 hj
    simp [fetch_direct, henv, h200, hj]
  · intro env host p ps r henv hst
    simp [probe_first_working_path, henv, hst]

theorem c7_witness :
    fetch_direct cex7_env "https://api.example/x" =
      .error (.httpStatus 404 "endpoint missing") :=
  c7_direct_fails_probe_skips.1 cex7_env "https://api.example/x"
    { status := 404, body := "endpoint missing", json := none } rfl
    (by norm_num) (by norm_num)

/-- Header extraction on a dict with an empty odds block yields no rows and
no exception. -/
theorem extract_obj_empty (kvs : List (String × Json)) (l : ℚ) :
    extract_corner_rows (.obj kvs) (Json.arr []) l = .ok [] := by
  obtain ⟨v1, h1⟩ := pick_first_obj_ok ["homeTeam", "home_team", "home"]
    kvs (.str "")
  obtain ⟨v2, h2⟩ := pick_first_obj_ok ["awayTeam", "away_team", "away"]
    kvs (.str "")
  obtain ⟨v3, h3⟩ := pick_first_obj_ok ["league", "competition", "tournament"]
    kvs (.str "")
  obtain ⟨v4, h4⟩ := pick_first_obj_ok ["id", "matchId", "fixtureId", "eventId"]
    kvs (.str "")
  obtain ⟨v5, h5⟩ := pick_first_obj_ok
    ["startTime", "commence_time", "start_time", "kickoff"] kvs (.str "")
  simp [extract_corner_rows, h1, h2, h3, h4, h5, bind_ok_iff,
    jsonCandidates, books_loop, pure_ok_iff]

/-- Claim C8: when one event's odds lookup fails (no embedded odds and the
by-id fetch yields nothing usable — network error, non-200, or unusable
body all produce `[]`), the batch still completes: that event contributes no
rows, every other event is processed, and the search returns the
concatenation of the other events' rows. -/
theorem c8_batch_skips_failed_event :
    ∀ (env : Env) (host base : String) (l : ℚ) (ms1 ms2 : List Json)
      (kvs : List (String × Json)) (r1 r2 : List Row),
      search_rows env host base l ms1 = .ok r1 →
      search_rows env host base l ms2 = .ok r2 →
      guess_odds_block (.obj kvs) = .ok [] →
      try_fetch_odds_by_id env host base (.obj kvs) = .ok [] →
      search_rows env host base l (ms1 ++ .obj kvs :: ms2) = .ok (r1 ++ r2) := by
  intro env host base l ms1 ms2 kvs r1 r2 h1 h2 hg ht
  induction ms1 generalizing r1 with
  | nil =>
    simp only [search_rows] at h1
    cases h1
    have hmob : match_odds_block env host base (.obj kvs) = .ok [] := by
      simp only [match_odds_block, bind_ok_iff]
      exact ⟨[], hg, by simpa using ht⟩
    simp only [List.nil_append, search_rows, bind_ok_iff]
    exact ⟨[], hmob, [], extract_obj_empty kvs l, r2, h2,
      by rw [pure_ok_iff]; simp⟩
  | cons m ms ih =>
    simp only [search_rows, bind_ok_iff] at h1
    rcases h1 with ⟨ob, hob, rowsM, hrowsM, rest, hrest, hpure⟩
    rw [pure_ok_iff] at hpure
    subst hpure
    rw [List.cons_append]
    simp only [search_rows, bind_ok_iff]
    exact ⟨ob, hob, rowsM, hrowsM, rest ++ r2, ih rest hrest,
      by rw [pure_ok_iff, List.append_assoc]⟩

theorem c8_witness :
    search_rows (fun _ => none) "h" "b" 0
      ([] ++ Json.obj [("id", Json.str "x")] :: [wit8_match]) =
      .ok ([] ++ [wit8_row]) :=
  c8_batch_skips_failed_event (fun _ => none) "h" "b" 0 [] [wit8_match]
    [("id", Json.str "x")] [] [wit8_row] rfl rfl rfl rfl

end Oddcor
